import Mathlib

set_option maxHeartbeats 1000000

/-
Verification development for the GothSteroids repository (src/main.py),
a single-file pygame Asteroids clone.  The game's core logic is embedded
shallowly: pygame 2D float vectors become pairs of reals, Python's float
`%` becomes floor-based real modulo, the monotonic millisecond clock
becomes an integer parameter, and every random draw of the source
(`random.uniform` calls in the asteroid constructor and spawn loop)
becomes an explicit argument.  Sprite-rect overlap tests depend on image
pixel data owned by the presentation layer, so pairwise overlap is an
explicit boolean-valued parameter of the collision-resolution embedding.
-/

noncomputable section

namespace GothSteroids

/-- Screen width constant from main.py (SCREEN_WIDTH = 800). -/
def SCREEN_WIDTH : ℝ := 800

/-- Screen height constant from main.py (SCREEN_HEIGHT = 600). -/
def SCREEN_HEIGHT : ℝ := 600

/-- A 2D vector, modelling pygame.math.Vector2. -/
abbrev Vec := ℝ × ℝ

/-- Python's float modulo `x % n`: the remainder with the divisor's sign,
`x - n * floor (x / n)`.  For n > 0 the result lies in [0, n). -/
def fmod (x n : ℝ) : ℝ := x - n * ⌊x / n⌋

/-- main.py `wrap_position`: wrap a position around the screen edges
(toroidal space) via `pos.x % SCREEN_WIDTH, pos.y % SCREEN_HEIGHT`. -/
def wrap_position (pos : Vec) : Vec :=
  (fmod pos.1 SCREEN_WIDTH, fmod pos.2 SCREEN_HEIGHT)

/-- main.py `angle_to_vector`: convert an angle in degrees to a direction
vector `(cos rad, -sin rad)` where `rad = radians(angle_deg)`. -/
def angle_to_vector (angle_deg : ℝ) : Vec :=
  (Real.cos (angle_deg * Real.pi / 180), -Real.sin (angle_deg * Real.pi / 180))

/-- Euclidean length of a 2D vector (pygame `Vector2.length`). -/
def vlen (v : Vec) : ℝ := Real.sqrt (v.1 ^ 2 + v.2 ^ 2)

/-- pygame `Vector2.scale_to_length L`: rescale the vector to length L,
multiplying by `L / |v|`. -/
def scale_to_length (v : Vec) (L : ℝ) : Vec := (L / vlen v) • v

/-- Euclidean distance between two points (pygame `Vector2.distance_to`). -/
def dist (p q : Vec) : ℝ := Real.sqrt ((p.1 - q.1) ^ 2 + (p.2 - q.2) ^ 2)

/-- Shared movement step of `GameObject.update`: add velocity to position
and wrap the result. -/
def GameObject.updatePos (pos velocity : Vec) : Vec :=
  wrap_position (pos + velocity)

/-- Currently held keys relevant to `Player.handle_input`
(`keys[pygame.K_LEFT]`, `keys[pygame.K_RIGHT]`, `keys[pygame.K_UP]`). -/
structure Keys where
  left : Bool
  right : Bool
  up : Bool

/-- The Player ship (class `Player` in main.py).  The image/rect fields are
presentation-layer data and are not part of the core state; `rotation_speed`
is fixed to 0 for the player so the rotation branch of `update` is inert. -/
structure Player where
  pos : Vec
  velocity : Vec
  angle : ℝ
  last_shot_time : ℤ
  thrust : ℝ
  max_speed : ℝ
  shot_cooldown : ℤ

/-- `Player.__init__`: spawn at the given position with zero velocity,
angle 0, thrust 0.15, max_speed 6, last_shot_time 0, cooldown 250 ms. -/
def Player.init (pos : Vec) : Player :=
  { pos := pos, velocity := (0, 0), angle := 0, last_shot_time := 0,
    thrust := 0.15, max_speed := 6, shot_cooldown := 250 }

/-- The heading after the rotation branch of `Player.handle_input`:
left adds `180 * dt` degrees mod 360, right subtracts `180 * dt` mod 360. -/
def Player.angle_after (p : Player) (keys : Keys) (dt : ℝ) : ℝ :=
  let a1 := if keys.left then fmod (p.angle + 180 * dt) 360 else p.angle
  if keys.right then fmod (a1 - 180 * dt) 360 else a1

/-- The velocity after the thrust increment of `Player.handle_input`
(`self.velocity += direction * self.thrust`), before the speed clamp. -/
def Player.thrust_velocity (p : Player) (keys : Keys) (dt : ℝ) : Vec :=
  p.velocity + p.thrust • angle_to_vector (p.angle_after keys dt)

/-- `Player.handle_input(keys, dt)`: rotate on left/right, thrust on up with
a speed clamp (`scale_to_length(max_speed)` when length exceeds max_speed),
then apply the unconditional friction factor 0.99. -/
def Player.handle_input (p : Player) (keys : Keys) (dt : ℝ) : Player :=
  let a2 := p.angle_after keys dt
  let v1 :=
    if keys.up then
      let vt := p.thrust_velocity keys dt
      if p.max_speed < vlen vt then scale_to_length vt p.max_speed else vt
    else p.velocity
  { p with angle := a2, velocity := (0.99 : ℝ) • v1 }

/-- `GameObject.update` for the player (rotation_speed = 0): move and wrap. -/
def Player.update (p : Player) : Player :=
  { p with pos := GameObject.updatePos p.pos p.velocity }

/-- `Player.can_shoot(current_time)`:
`current_time - self.last_shot_time >= self.shot_cooldown`. -/
def Player.can_shoot (p : Player) (now : ℤ) : Bool :=
  decide (p.shot_cooldown ≤ now - p.last_shot_time)

/-- A bullet (class `Bullet` in main.py); its image is presentation data. -/
structure Bullet where
  pos : Vec
  velocity : Vec
  spawn_time : ℤ

/-- `Bullet.lifetime`: 2000 ms. -/
def Bullet.lifetime : ℤ := 2000

/-- `Player.shoot(current_time)`: record the shot time, and spawn a bullet at
`pos + direction * (rect.width // 2)` with velocity `direction * 10 + velocity`.
The half-width of the ship's current rect is image data, passed in as
`half_width`.  Returns the updated player together with the new bullet. -/
def Player.shoot (p : Player) (now : ℤ) (half_width : ℝ) : Player × Bullet :=
  let d := angle_to_vector p.angle
  ({ p with last_shot_time := now },
   { pos := p.pos + half_width • d, velocity := (10 : ℝ) • d + p.velocity,
     spawn_time := now })

/-- Movement part of `Bullet.update` (lifetime expiry is handled by the frame
step, which drops expired bullets from the live set, modelling `kill`). -/
def Bullet.update (b : Bullet) : Bullet :=
  { b with pos := GameObject.updatePos b.pos b.velocity }

/-- Lifetime test of `Bullet.update`:
`pygame.time.get_ticks() - self.spawn_time > self.lifetime`. -/
def Bullet.expired (b : Bullet) (now : ℤ) : Bool :=
  decide (Bullet.lifetime < now - b.spawn_time)

/-- The random draws made by `Asteroid.__init__`: a heading angle
(`random.uniform(0, 360)`), a speed draw (`random.uniform(0.5, 2.0)`) and a
spin rate (`random.uniform(-1, 1)`). -/
structure AstRand where
  angle : ℝ
  speed : ℝ
  spin : ℝ

/-- An asteroid (class `Asteroid` in main.py); size 3 = large, 2 = medium,
1 = small.  Its sprite/scale data lives in the presentation layer. -/
structure Asteroid where
  pos : Vec
  velocity : Vec
  size : ℕ
  angle : ℝ
  rotation_speed : ℝ

/-- `Asteroid.__init__(pos, size)` with the constructor's random draws made
explicit: velocity = `angle_to_vector(angle) * (speed / size)` (smaller
asteroids move faster), angle 0, spin from the draw. -/
def Asteroid.init (pos : Vec) (size : ℕ) (r : AstRand) : Asteroid :=
  { pos := pos, velocity := (r.speed / (size : ℝ)) • angle_to_vector r.angle,
    size := size, angle := 0, rotation_speed := r.spin }

/-- `Asteroid.break_apart()`: if size <= 1 return no fragments, else return two
asteroids of size `size - 1` at the parent's position, each built by the
`Asteroid` constructor with its own random draws.  The first component is the
post-call state of the parent object: the method body reads `self.pos` and
`self.size` and assigns no field of `self`, so the parent is returned
unchanged. -/
def Asteroid.break_apart (a : Asteroid) (r₁ r₂ : AstRand) :
    Asteroid × List Asteroid :=
  if a.size ≤ 1 then (a, [])
  else (a, [Asteroid.init a.pos (a.size - 1) r₁,
            Asteroid.init a.pos (a.size - 1) r₂])

/-- `GameObject.update` for an asteroid: advance the angle by the rotation
speed (mod 360) when the rotation speed is nonzero, then move and wrap. -/
def Asteroid.update (a : Asteroid) : Asteroid :=
  { a with
    angle := if a.rotation_speed ≠ 0 then fmod (a.angle + a.rotation_speed) 360
             else a.angle,
    pos := GameObject.updatePos a.pos a.velocity }

/-- The hit dictionary built by
`pygame.sprite.groupcollide(bullets, asteroids, True, False)`: sprites are
identified by their index in the bullet group (`nb` bullets) and in the
asteroid group (`na` asteroids); `overlap i j` is the sprite-rect collision
test between bullet i and asteroid j (image geometry, hence a parameter).
Each bullet is mapped to the list of asteroids currently overlapping it;
the asteroid group is not modified while the dictionary is built. -/
def groupcollideHits (overlap : ℕ → ℕ → Bool) (nb na : ℕ) :
    List (ℕ × List ℕ) :=
  (List.range nb).map (fun i => (i, (List.range na).filter (fun j => overlap i j)))

/-- Size of asteroid j in the pre-collision asteroid group (0 when out of
range; every processed index is in range). -/
def sizeAt (asts : List Asteroid) (j : ℕ) : ℕ :=
  ((asts[j]?).map Asteroid.size).getD 0

/-- Mutable state threaded through the collision loop of `main`: indices of
asteroids killed so far, fragments added so far, the score, and the position
in the stream of random draws consumed by `break_apart` calls. -/
structure HitState where
  killed : List ℕ
  frags : List Asteroid
  score : ℕ
  rk : ℕ

/-- One iteration of the inner collision loop of `main`
(lines 339-345): `fragments = asteroid.break_apart(); asteroid.kill();`
add the fragments to the live groups; `score += 10 * asteroid.size`.
`rand k` supplies the random draws of the k-th `break_apart` call. -/
def processHit (asts : List Asteroid) (rand : ℕ → AstRand × AstRand)
    (st : HitState) (j : ℕ) : HitState :=
  match asts[j]? with
  | none => st
  | some a =>
    { killed := j :: st.killed,
      frags := st.frags ++ (a.break_apart (rand st.rk).1 (rand st.rk).2).2,
      score := st.score + 10 * a.size,
      rk := st.rk + 1 }

/-- The nested loop `for bullet, hit_asteroids in hits.items(): for asteroid
in hit_asteroids: ...` folded over the hit dictionary. -/
def resolveHits (asts : List Asteroid) (rand : ℕ → AstRand × AstRand)
    (score₀ : ℕ) (hits : List (ℕ × List ℕ)) : HitState :=
  hits.foldl (fun st p => p.2.foldl (processHit asts rand) st)
    ⟨[], [], score₀, 0⟩

/-- The asteroids of the original group that were not killed, in order. -/
def survivors (asts : List Asteroid) (killed : List ℕ) : List Asteroid :=
  (asts.enum.filter (fun q => decide (q.1 ∉ killed))).map Prod.snd

/-- The bullet-vs-asteroid collision resolution of one Playing frame
(lines 337-345 of main.py): build the groupcollide hit dictionary, run the
nested loop, and return the resulting asteroid group (survivors plus added
fragments) together with the resulting score. -/
def resolveCollisions (overlap : ℕ → ℕ → Bool) (rand : ℕ → AstRand × AstRand)
    (nb : ℕ) (asts : List Asteroid) (score₀ : ℕ) : List Asteroid × ℕ :=
  let st := resolveHits asts rand score₀ (groupcollideHits overlap nb asts.length)
  (survivors asts st.killed ++ st.frags, st.score)

/-- The asteroid indices processed by the nested collision loop, in order:
the concatenation of the per-bullet hit lists of the groupcollide
dictionary.  An index occurs once per bullet overlapping that asteroid. -/
def allHits (overlap : ℕ → ℕ → Bool) (nb na : ℕ) : List ℕ :=
  ((groupcollideHits overlap nb na).map Prod.snd).flatten

/-- Number of bullets overlapping asteroid j in a frame with nb bullets. -/
def hitCount (overlap : ℕ → ℕ → Bool) (nb j : ℕ) : ℕ :=
  ((List.range nb).filter (fun i => overlap i j)).length

/-- Indices of the asteroids overlapped by at least one bullet. -/
def hitIdxs (overlap : ℕ → ℕ → Bool) (nb na : ℕ) : List ℕ :=
  (List.range na).filter (fun j => (List.range nb).any (fun i => overlap i j))

/-- The game-flow states of class `GameState` in main.py. -/
inductive GState
  | start
  | playing
  | paused
  | game_over
deriving DecidableEq

/-- The keys the event handler of `main` distinguishes. -/
inductive Key
  | space
  | escape
  | keyR
  | keyQ
  | other
deriving DecidableEq

/-- A pygame event as consumed by `main`: a window-close request or a
key-down event. -/
inductive Event
  | quit
  | keydown (k : Key)

/-- The live session owned by `main`: the player, the asteroid and bullet
groups, and the score. -/
structure Session where
  player : Player
  asteroids : List Asteroid
  bullets : List Bullet
  score : ℕ

/-- The event dispatch of `main` (lines 299-328): window close clears
`running` in every state; key handling is state-dependent.  `fresh` is the
session built by `reset_game` when restart is pressed in game-over, `now`
is `pygame.time.get_ticks()` at dispatch time, and `hw` is the ship rect's
half width used by `shoot`. -/
def handleEvent (fresh : Session) (now : ℤ) (hw : ℝ)
    (st : GState) (s : Session) (running : Bool) (e : Event) :
    GState × Session × Bool :=
  match e with
  | Event.quit => (st, s, false)
  | Event.keydown k =>
    match st with
    | GState.start =>
        if k = Key.space then (GState.playing, s, running)
        else (GState.start, s, running)
    | GState.playing =>
        if k = Key.space then
          if s.player.can_shoot now then
            let pb := s.player.shoot now hw
            (GState.playing,
             { s with player := pb.1, bullets := s.bullets ++ [pb.2] }, running)
          else (GState.playing, s, running)
        else if k = Key.escape then (GState.paused, s, running)
        else (GState.playing, s, running)
    | GState.paused =>
        if k = Key.escape then (GState.playing, s, running)
        else (GState.paused, s, running)
    | GState.game_over =>
        if k = Key.keyR then (GState.playing, fresh, running)
        else if k = Key.keyQ then (GState.game_over, s, false)
        else (GState.game_over, s, running)

/-- The per-frame data consumed by the Playing-state update block: held keys,
elapsed seconds, the millisecond clock, the two sprite-overlap tests
(bullet/asteroid by group index, and ship/asteroid), and the stream of
random draws for fragmentation. -/
structure FrameEnv where
  keys : Keys
  dt : ℝ
  now : ℤ
  bulletOverlap : ℕ → ℕ → Bool
  shipOverlap : Player → Asteroid → Bool
  rand : ℕ → AstRand × AstRand

/-- The player after `player.handle_input(keys, dt)` and
`all_sprites.update()`. -/
def movedPlayer (env : FrameEnv) (s : Session) : Player :=
  (s.player.handle_input env.keys env.dt).update

/-- The asteroid group after `all_sprites.update()`. -/
def movedAsteroids (s : Session) : List Asteroid :=
  s.asteroids.map Asteroid.update

/-- The bullet group after `all_sprites.update()`: every bullet moves, and
bullets older than their lifetime kill themselves. -/
def liveBullets (env : FrameEnv) (s : Session) : List Bullet :=
  (s.bullets.map Bullet.update).filter (fun b => ! b.expired env.now)

/-- The asteroid group and score after the bullet-asteroid collision block. -/
def postCollision (env : FrameEnv) (s : Session) : List Asteroid × ℕ :=
  resolveCollisions env.bulletOverlap env.rand (liveBullets env s).length
    (movedAsteroids s) s.score

/-- Bullets not killed by `groupcollide` (those overlapping no asteroid). -/
def survivingBullets (env : FrameEnv) (s : Session) : List Bullet :=
  ((liveBullets env s).enum.filter (fun q =>
    ((List.range (movedAsteroids s).length).filter
      (fun j => env.bulletOverlap q.1 j)).isEmpty)).map Prod.snd

/-- The update block of one Playing frame (lines 331-349 of main.py):
input, movement, bullet-asteroid collisions, then the ship-asteroid check
(`spritecollideany`) which moves the state to game-over. -/
def playingUpdate (env : FrameEnv) (s : Session) : GState × Session :=
  let p := movedPlayer env s
  let ar := postCollision env s
  ({ player := p, asteroids := ar.1, bullets := survivingBullets env s,
     score := ar.2 } : Session) |> fun s' =>
  (if ar.1.any (fun a => env.shipOverlap p a) then GState.game_over
   else GState.playing, s')

/-- The state-guarded update of `main`: the update block runs only in the
Playing state; in every other state no entity update and no collision check
occurs and the session is untouched. -/
def updatePhase (env : FrameEnv) (st : GState) (s : Session) :
    GState × Session :=
  if st = GState.playing then playingUpdate env s else (st, s)

/-- The rejection-sampling position loop of `reset_game`: take candidate
positions (`Vector2(randrange(W), randrange(H))`) until one lies farther
than `min_dist = 200` from the player; the candidate stream is modelled by
a list, and `none` means the stream was exhausted before a candidate
qualified (the source loops forever in that case). -/
def pickPos (ppos : Vec) (cands : List Vec) : Option Vec :=
  cands.find? (fun c => decide (200 < dist c ppos))

/-- The `for _ in range(5)` spawn loop of `reset_game`, over the list of
loop indices: each iteration picks a safe position from its candidate
stream and builds a size-3 asteroid with its constructor draws. -/
def spawnLoop (ppos : Vec) (cands : ℕ → List Vec) (draws : ℕ → AstRand) :
    List ℕ → Option (List Asteroid)
  | [] => some []
  | i :: rest =>
    match pickPos ppos (cands i) with
    | none => none
    | some c =>
      match spawnLoop ppos cands draws rest with
      | none => none
      | some l => some (Asteroid.init c 3 (draws i) :: l)

/-- `reset_game(all_sprites, asteroids, bullets)`: empty all groups, create
the player at the screen centre, spawn 5 size-3 asteroids outside the safe
radius, and return the player and the reset score 0.  The resulting session
is the player, the asteroid group, the emptied bullet group, and score 0. -/
def reset_game (cands : ℕ → List Vec) (draws : ℕ → AstRand) :
    Option (Player × List Asteroid × List Bullet × ℕ) :=
  let player := Player.init (SCREEN_WIDTH / 2, SCREEN_HEIGHT / 2)
  (spawnLoop player.pos cands draws (List.range 5)).map
    (fun asts => (player, asts, ([] : List Bullet), 0))

end GothSteroids

end

namespace GothSteroids

/-- For a positive modulus, Python float modulo is non-negative. -/
lemma fmod_nonneg (x : ℝ) {n : ℝ} (hn : 0 < n) : 0 ≤ fmod x n := by
  unfold fmod
  have h := Int.floor_le (x / n)
  have : n * ⌊x / n⌋ ≤ n * (x / n) :=
    mul_le_mul_of_nonneg_left h hn.le
  rw [mul_div_cancel₀ x hn.ne'] at this
  linarith

/-- For a positive modulus, Python float modulo is below the modulus. -/
lemma fmod_lt (x : ℝ) {n : ℝ} (hn : 0 < n) : fmod x n < n := by
  unfold fmod
  have h := Int.lt_floor_add_one (x / n)
  have : n * (x / n) < n * (⌊x / n⌋ + 1) :=
    (mul_lt_mul_left hn).mpr h
  rw [mul_div_cancel₀ x hn.ne'] at this
  nlinarith

/-- Values already inside [0, n) are fixed by `fmod`. -/
lemma fmod_eq_self {x n : ℝ} (h0 : 0 ≤ x) (h1 : x < n) : fmod x n = x := by
  have hn : 0 < n := lt_of_le_of_lt h0 h1
  unfold fmod
  have hfloor : ⌊x / n⌋ = 0 := by
    rw [Int.floor_eq_zero_iff]
    constructor
    · exact div_nonneg h0 hn.le
    · exact (div_lt_one hn).mpr h1
  rw [hfloor]
  simp

/-- Claim C4: for every position p, `wrap_position p` has x-coordinate in
[0, 800) and y-coordinate in [0, 600), and `wrap_position` is idempotent:
`wrap_position (wrap_position p) = wrap_position p`.  (`wrap_position` is a
pure Lean function of its argument, so it has no side effects.) -/
theorem wrap_position_range_idem (p : Vec) :
    0 ≤ (wrap_position p).1 ∧ (wrap_position p).1 < 800 ∧
    0 ≤ (wrap_position p).2 ∧ (wrap_position p).2 < 600 ∧
    wrap_position (wrap_position p) = wrap_position p := by
  have h800 : (0 : ℝ) < 800 := by norm_num
  have h600 : (0 : ℝ) < 600 := by norm_num
  refine ⟨fmod_nonneg p.1 h800, fmod_lt p.1 h800,
          fmod_nonneg p.2 h600, fmod_lt p.2 h600, ?_⟩
  unfold wrap_position SCREEN_WIDTH SCREEN_HEIGHT
  have hx := fmod_eq_self (fmod_nonneg p.1 h800) (fmod_lt p.1 h800)
  have hy := fmod_eq_self (fmod_nonneg p.2 h600) (fmod_lt p.2 h600)
  simp only [wrap_position, SCREEN_WIDTH, SCREEN_HEIGHT] at *
  rw [hx, hy]

/-- Claim C2: for every asteroid a and every outcome of the random heading,
speed and spin draws, if `a.size ≤ 1` then `break_apart` returns no
fragments, and if `a.size > 1` it returns exactly two asteroids, each of
size `a.size - 1` and each positioned at a's position. -/
theorem break_apart_fragmentation (a : Asteroid) (r₁ r₂ : AstRand) :
    (a.size ≤ 1 → (a.break_apart r₁ r₂).2 = []) ∧
    (1 < a.size →
      (a.break_apart r₁ r₂).2.length = 2 ∧
      ∀ f ∈ (a.break_apart r₁ r₂).2, f.size = a.size - 1 ∧ f.pos = a.pos) := by
  constructor
  · intro h
    simp [Asteroid.break_apart, h]
  · intro h
    have h' : ¬ a.size ≤ 1 := by omega
    refine ⟨by simp [Asteroid.break_apart, h'], ?_⟩
    intro f hf
    simp [Asteroid.break_apart, h'] at hf
    rcases hf with hf | hf <;> subst hf <;> simp [Asteroid.init]

/-- Witness for C2 at a concrete size-2 asteroid. -/
theorem break_apart_fragmentation_witness :
    (1 < (2 : ℕ)) ∧
    ((Asteroid.break_apart ⟨(5, 7), (0, 0), 2, 0, 0⟩ ⟨0, 1, 0⟩ ⟨90, 1, 0⟩).2.length = 2 ∧
     ∀ f ∈ (Asteroid.break_apart ⟨(5, 7), (0, 0), 2, 0, 0⟩ ⟨0, 1, 0⟩ ⟨90, 1, 0⟩).2,
       f.size = 2 - 1 ∧ f.pos = ((5 : ℝ), (7 : ℝ))) :=
  ⟨by norm_num,
   (break_apart_fragmentation ⟨(5, 7), (0, 0), 2, 0, 0⟩ ⟨0, 1, 0⟩ ⟨90, 1, 0⟩).2
     (by norm_num)⟩

/-- Claim C10: `break_apart` leaves the parent asteroid unchanged (the method
body assigns no field of the parent), so in particular its size, position
and velocity are those it had before the call; consequently the score
increment of the collision loop, computed after the parent's `kill()`,
uses the parent's original size: each processed hit adds exactly
`10 * sizeAt asts j` for the asteroid as stored in the pre-collision
group. -/
theorem break_apart_parent_unchanged (a : Asteroid) (r₁ r₂ : AstRand) :
    (a.break_apart r₁ r₂).1 = a ∧
    (a.break_apart r₁ r₂).1.size = a.size ∧
    (a.break_apart r₁ r₂).1.pos = a.pos ∧
    (a.break_apart r₁ r₂).1.velocity = a.velocity ∧
    ∀ (asts : List Asteroid) (rand : ℕ → AstRand × AstRand)
      (st : HitState) (j : ℕ),
      (processHit asts rand st j).score = st.score + 10 * sizeAt asts j := by
  have hpar : (a.break_apart r₁ r₂).1 = a := by
    unfold Asteroid.break_apart
    split <;> rfl
  refine ⟨hpar, by rw [hpar], by rw [hpar], by rw [hpar], ?_⟩
  intro asts rand st j
  unfold processHit sizeAt
  cases h : asts[j]? <;> simp [h]

/-- Claim C8: `can_shoot now` is true iff `now - last_shot_time` has reached
the cooldown, the cooldown of a freshly constructed player is 250 ms, and
`shoot now` records `now` as the shot time and returns a bullet at
`pos + direction(angle) * half_width` with velocity
`direction(angle) * 10 + velocity`. -/
theorem can_shoot_shoot_spec :
    (∀ (p : Player) (now : ℤ),
      p.can_shoot now = true ↔ p.shot_cooldown ≤ now - p.last_shot_time) ∧
    (∀ pos : Vec, (Player.init pos).shot_cooldown = 250) ∧
    (∀ (p : Player) (now : ℤ) (hw : ℝ),
      (p.shoot now hw).1 = { p with last_shot_time := now } ∧
      (p.shoot now hw).2.pos = p.pos + hw • angle_to_vector p.angle ∧
      (p.shoot now hw).2.velocity = (10 : ℝ) • angle_to_vector p.angle + p.velocity ∧
      (p.shoot now hw).2.spawn_time = now) := by
  refine ⟨?_, ?_, ?_⟩
  · intro p now
    simp [Player.can_shoot]
  · intro pos
    rfl
  · intro p now hw
    refine ⟨rfl, rfl, rfl, rfl⟩

/-- One collision-loop step adds exactly `10 * sizeAt asts j` to the score. -/
lemma processHit_score (asts : List Asteroid) (rand : ℕ → AstRand × AstRand)
    (st : HitState) (j : ℕ) :
    (processHit asts rand st j).score = st.score + 10 * sizeAt asts j := by
  unfold processHit sizeAt
  cases h : asts[j]? <;> simp [h]

/-- The inner collision loop adds `10 *` the sum of the hit sizes. -/
lemma foldl_processHit_score (asts : List Asteroid)
    (rand : ℕ → AstRand × AstRand) (js : List ℕ) (st : HitState) :
    (js.foldl (processHit asts rand) st).score =
      st.score + 10 * (js.map (sizeAt asts)).sum := by
  induction js generalizing st with
  | nil => simp
  | cons j rest ih =>
    simp only [List.foldl_cons, List.map_cons, List.sum_cons]
    rw [ih, processHit_score]
    ring

/-- The nested collision loop adds `10 *` the sum over the hit dictionary. -/
lemma resolveHits_score (asts : List Asteroid)
    (rand : ℕ → AstRand × AstRand) (score₀ : ℕ) (hits : List (ℕ × List ℕ)) :
    (resolveHits asts rand score₀ hits).score =
      score₀ + 10 * ((hits.map (fun q => (q.2.map (sizeAt asts)).sum)).sum) := by
  have key : ∀ (hits : List (ℕ × List ℕ)) (st : HitState),
      (hits.foldl (fun st p => p.2.foldl (processHit asts rand) st) st).score =
        st.score + 10 * ((hits.map (fun q => (q.2.map (sizeAt asts)).sum)).sum) := by
    intro hits
    induction hits with
    | nil => intro st; simp
    | cons h rest ih =>
      intro st
      simp only [List.foldl_cons, List.map_cons, List.sum_cons]
      rw [ih, foldl_processHit_score]
      ring
  unfold resolveHits
  exact key _ _

/-- Claim C6: the score is a natural number (hence non-negative); each
processed projectile hit on an asteroid of stored size s adds exactly
`10 * s` points; the score after collision resolution is the old score plus
`10 *` the sum of the hit asteroid sizes and so never decreases; and the
frame update (the only place the score changes while Playing) never
decreases the session score. -/
theorem score_monotone_spec :
    (∀ (asts : List Asteroid) (rand : ℕ → AstRand × AstRand)
       (st : HitState) (j : ℕ),
       (processHit asts rand st j).score = st.score + 10 * sizeAt asts j) ∧
    (∀ (overlap : ℕ → ℕ → Bool) (rand : ℕ → AstRand × AstRand)
       (nb : ℕ) (asts : List Asteroid) (score₀ : ℕ),
       (resolveCollisions overlap rand nb asts score₀).2 =
         score₀ + 10 * (((groupcollideHits overlap nb asts.length).map
           (fun q => (q.2.map (sizeAt asts)).sum)).sum) ∧
       score₀ ≤ (resolveCollisions overlap rand nb asts score₀).2) ∧
    (∀ (env : FrameEnv) (st : GState) (s : Session),
       s.score ≤ (updatePhase env st s).2.score) := by
  refine ⟨processHit_score, ?_, ?_⟩
  · intro overlap rand nb asts score₀
    have h : (resolveCollisions overlap rand nb asts score₀).2 =
        score₀ + 10 * (((groupcollideHits overlap nb asts.length).map
          (fun q => (q.2.map (sizeAt asts)).sum)).sum) := by
      unfold resolveCollisions
      exact resolveHits_score asts rand score₀ _
    exact ⟨h, by rw [h]; exact Nat.le_add_right _ _⟩
  · intro env st s
    unfold updatePhase
    split
    · unfold playingUpdate
      simp only
      unfold postCollision
      have h := resolveHits_score (movedAsteroids s) env.rand s.score
        (groupcollideHits env.bulletOverlap (liveBullets env s).length
          (movedAsteroids s).length)
      unfold resolveCollisions
      simp only
      rw [h]
      exact Nat.le_add_right _ _
    · exact le_rfl

/-- Claim C5: only the enumerated game-flow transitions occur.  Start goes
to Playing exactly on the fire/confirm key and ignores every other key;
Playing toggles to Paused and Paused back to Playing exactly on the pause
key, every other key leaving Paused unchanged (in particular fire while
Paused produces no projectile and no state change); pressing fire while
Playing keeps the state Playing; GameOver restarts into a fresh Playing
session on R, exits on Q, and ignores other keys; a window-close event
clears the running flag from every state; no entity update or collision
check occurs outside the Playing state (the update phase is the identity
there); and from Playing the update phase ends in GameOver exactly when the
ship overlaps a live asteroid of the post-collision asteroid group. -/
theorem state_machine_closure :
    (∀ (fresh : Session) (now : ℤ) (hw : ℝ) (s : Session) (r : Bool),
      handleEvent fresh now hw GState.start s r (Event.keydown Key.space) =
        (GState.playing, s, r)) ∧
    (∀ (fresh : Session) (now : ℤ) (hw : ℝ) (s : Session) (r : Bool) (k : Key),
      k ≠ Key.space →
      handleEvent fresh now hw GState.start s r (Event.keydown k) =
        (GState.start, s, r)) ∧
    (∀ (fresh : Session) (now : ℤ) (hw : ℝ) (s : Session) (r : Bool),
      handleEvent fresh now hw GState.playing s r (Event.keydown Key.escape) =
        (GState.paused, s, r)) ∧
    (∀ (fresh : Session) (now : ℤ) (hw : ℝ) (s : Session) (r : Bool),
      (handleEvent fresh now hw GState.playing s r
        (Event.keydown Key.space)).1 = GState.playing) ∧
    (∀ (fresh : Session) (now : ℤ) (hw : ℝ) (s : Session) (r : Bool) (k : Key),
      k ≠ Key.space → k ≠ Key.escape →
      handleEvent fresh now hw GState.playing s r (Event.keydown k) =
        (GState.playing, s, r)) ∧
    (∀ (fresh : Session) (now : ℤ) (hw : ℝ) (s : Session) (r : Bool),
      handleEvent fresh now hw GState.paused s r (Event.keydown Key.escape) =
        (GState.playing, s, r)) ∧
    (∀ (fresh : Session) (now : ℤ) (hw : ℝ) (s : Session) (r : Bool) (k : Key),
      k ≠ Key.escape →
      handleEvent fresh now hw GState.paused s r (Event.keydown k) =
        (GState.paused, s, r)) ∧
    (∀ (fresh : Session) (now : ℤ) (hw : ℝ) (s : Session) (r : Bool),
      handleEvent fresh now hw GState.game_over s r (Event.keydown Key.keyR) =
        (GState.playing, fresh, r)) ∧
    (∀ (fresh : Session) (now : ℤ) (hw : ℝ) (s : Session) (r : Bool),
      handleEvent fresh now hw GState.game_over s r (Event.keydown Key.keyQ) =
        (GState.game_over, s, false)) ∧
    (∀ (fresh : Session) (now : ℤ) (hw : ℝ) (s : Session) (r : Bool) (k : Key),
      k ≠ Key.keyR → k ≠ Key.keyQ →
      handleEvent fresh now hw GState.game_over s r (Event.keydown k) =
        (GState.game_over, s, r)) ∧
    (∀ (fresh : Session) (now : ℤ) (hw : ℝ) (st : GState) (s : Session)
       (r : Bool),
      handleEvent fresh now hw st s r Event.quit = (st, s, false)) ∧
    (∀ (env : FrameEnv) (st : GState) (s : Session),
      st ≠ GState.playing → updatePhase env st s = (st, s)) ∧
    (∀ (env : FrameEnv) (s : Session),
      ((updatePhase env GState.playing s).1 = GState.game_over ↔
        (postCollision env s).1.any
          (fun a => env.shipOverlap (movedPlayer env s) a) = true)) := by
  refine ⟨?_, ?_, ?_, ?_, ?_, ?_, ?_, ?_, ?_, ?_, ?_, ?_, ?_⟩
  · intro fresh now hw s r
    rfl
  · intro fresh now hw s r k hk
    simp [handleEvent, hk]
  · intro fresh now hw s r
    rfl
  · intro fresh now hw s r
    unfold handleEvent
    simp only [if_pos rfl]
    split
    · split <;> rfl
    · rfl
  · intro fresh now hw s r k hk1 hk2
    simp [handleEvent, hk1, hk2]
  · intro fresh now hw s r
    rfl
  · intro fresh now hw s r k hk
    simp [handleEvent, hk]
  · intro fresh now hw s r
    rfl
  · intro fresh now hw s r
    rfl
  · intro fresh now hw s r k hk1 hk2
    simp [handleEvent, hk1, hk2]
  · intro fresh now hw st s r
    cases st <;> rfl
  · intro env st s hst
    simp [updatePhase, hst]
  · intro env s
    unfold updatePhase playingUpdate
    simp only [if_pos rfl]
    by_cases h : (postCollision env s).1.any
        (fun a => env.shipOverlap (movedPlayer env s) a) = true
    · simp [h]
    · simp [h]

/-- Witness for C5: in a concrete paused session, pressing fire changes
nothing, and in a non-Playing state the update phase is the identity. -/
theorem state_machine_closure_witness :
    (Key.space ≠ Key.escape) ∧
    (handleEvent
        ⟨Player.init (0, 0), [], [], 0⟩ 0 0 GState.paused
        ⟨Player.init (0, 0), [], [], 0⟩ true (Event.keydown Key.space) =
      (GState.paused, ⟨Player.init (0, 0), [], [], 0⟩, true)) ∧
    (GState.paused ≠ GState.playing) ∧
    (updatePhase
        ⟨⟨false, false, false⟩, 0, 0, fun _ _ => false, fun _ _ => false,
          fun _ => (⟨0, 0, 0⟩, ⟨0, 0, 0⟩)⟩ GState.paused
        ⟨Player.init (0, 0), [], [], 0⟩ =
      (GState.paused, ⟨Player.init (0, 0), [], [], 0⟩)) :=
  ⟨by decide,
   (state_machine_closure.2.2.2.2.2.2.1)
     ⟨Player.init (0, 0), [], [], 0⟩ 0 0 ⟨Player.init (0, 0), [], [], 0⟩ true
     Key.space (by decide),
   by decide,
   (state_machine_closure.2.2.2.2.2.2.2.2.2.2.2.1)
     ⟨⟨false, false, false⟩, 0, 0, fun _ _ => false, fun _ _ => false,
       fun _ => (⟨0, 0, 0⟩, ⟨0, 0, 0⟩)⟩ GState.paused
     ⟨Player.init (0, 0), [], [], 0⟩ (by decide)⟩

/-- Vector lengths are non-negative. -/
lemma vlen_nonneg (v : Vec) : 0 ≤ vlen v := Real.sqrt_nonneg _

/-- Length of a scalar multiple. -/
lemma vlen_smul (c : ℝ) (v : Vec) : vlen (c • v) = |c| * vlen v := by
  unfold vlen
  have h1 : (c • v).1 = c * v.1 := rfl
  have h2 : (c • v).2 = c * v.2 := rfl
  rw [h1, h2]
  have : (c * v.1) ^ 2 + (c * v.2) ^ 2 = c ^ 2 * (v.1 ^ 2 + v.2 ^ 2) := by ring
  rw [this, Real.sqrt_mul (sq_nonneg c), Real.sqrt_sq_eq_abs]

/-- A vector of zero length is the zero vector. -/
lemma vlen_eq_zero_iff (v : Vec) : vlen v = 0 ↔ v = ((0 : ℝ), (0 : ℝ)) := by
  unfold vlen
  constructor
  · intro h
    have hsum : v.1 ^ 2 + v.2 ^ 2 = 0 := by
      have hnn : 0 ≤ v.1 ^ 2 + v.2 ^ 2 := by positivity
      have := Real.sqrt_eq_zero hnn |>.mp h
      exact this
    have h1 : v.1 = 0 := by nlinarith [sq_nonneg v.1, sq_nonneg v.2]
    have h2 : v.2 = 0 := by nlinarith [sq_nonneg v.1, sq_nonneg v.2]
    exact Prod.ext h1 h2
  · intro h
    rw [h]
    simp [Real.sqrt_eq_zero]

/-- `scale_to_length` with a non-negative target length on a vector of
positive length yields exactly that length. -/
lemma vlen_scale_to_length (v : Vec) (L : ℝ) (hv : 0 < vlen v) (hL : 0 ≤ L) :
    vlen (scale_to_length v L) = L := by
  unfold scale_to_length
  rw [vlen_smul, abs_of_nonneg (div_nonneg hL hv.le), div_mul_cancel₀ _ hv.ne']

/-- The velocity produced by `handle_input` is the friction factor times the
post-clamp velocity, and the post-clamp velocity has length at most
`max_speed` whenever the incoming velocity does (with `max_speed = 6`). -/
lemma handle_input_vlen (p : Player) (keys : Keys) (dt : ℝ)
    (hmax : p.max_speed = 6) (hv : vlen p.velocity ≤ 6) :
    vlen ((p.handle_input keys dt).velocity) ≤ 6 := by
  unfold Player.handle_input
  simp only
  rw [vlen_smul]
  have habs : |(0.99 : ℝ)| = 0.99 := by norm_num
  rw [habs]
  have hbranch : vlen (if keys.up then
      (if p.max_speed < vlen (p.thrust_velocity keys dt) then
        scale_to_length (p.thrust_velocity keys dt) p.max_speed
       else p.thrust_velocity keys dt)
      else p.velocity) ≤ 6 := by
    by_cases hup : keys.up
    · simp only [hup, if_true]
      by_cases hcl : p.max_speed < vlen (p.thrust_velocity keys dt)
      · simp only [hcl, if_true]
        have hpos : 0 < vlen (p.thrust_velocity keys dt) := by
          rw [hmax] at hcl
          linarith
        rw [vlen_scale_to_length _ _ hpos (by rw [hmax]; norm_num), hmax]
      · simp only [hcl, if_false]
        rw [hmax] at hcl
        linarith
    · simp only [hup, if_false]
      exact hv
  have hnn : 0 ≤ vlen (if keys.up then
      (if p.max_speed < vlen (p.thrust_velocity keys dt) then
        scale_to_length (p.thrust_velocity keys dt) p.max_speed
       else p.thrust_velocity keys dt)
      else p.velocity) := vlen_nonneg _
  nlinarith

/-- `handle_input` and `update` do not change `max_speed`. -/
lemma step_preserves_max_speed (p : Player) (keys : Keys) (dt : ℝ) :
    ((p.handle_input keys dt).update).max_speed = p.max_speed := rfl

/-- Claim C3: if a ship state has `max_speed = 6` and velocity of magnitude
at most 6, then after `handle_input` with any combination of held keys and
any `dt ≥ 0` the velocity magnitude is still at most 6; consequently after
any sequence of frames (each a `handle_input` followed by the movement
update) starting from the zero-velocity spawn state, the bound
`|velocity| ≤ 6` holds. -/
theorem speed_clamp :
    (∀ (p : Player) (keys : Keys) (dt : ℝ), p.max_speed = 6 → 0 ≤ dt →
      vlen p.velocity ≤ 6 → vlen ((p.handle_input keys dt).velocity) ≤ 6) ∧
    (∀ (inputs : List (Keys × ℝ)) (pos : Vec),
      vlen ((inputs.foldl (fun q i => (q.handle_input i.1 i.2).update)
        (Player.init pos)).velocity) ≤ 6) := by
  constructor
  · intro p keys dt hmax _ hv
    exact handle_input_vlen p keys dt hmax hv
  · intro inputs pos
    have key : ∀ (l : List (Keys × ℝ)) (p : Player), p.max_speed = 6 →
        vlen p.velocity ≤ 6 →
        vlen ((l.foldl (fun q i => (q.handle_input i.1 i.2).update) p).velocity) ≤ 6 := by
      intro l
      induction l with
      | nil => intro p _ hv; exact hv
      | cons i rest ih =>
        intro p hmax hv
        simp only [List.foldl_cons]
        exact ih ((p.handle_input i.1 i.2).update)
          (by rw [step_preserves_max_speed, hmax])
          (handle_input_vlen p i.1 i.2 hmax hv)
    refine key inputs (Player.init pos) rfl ?_
    have : (Player.init pos).velocity = ((0 : ℝ), (0 : ℝ)) := rfl
    rw [this, show vlen ((0 : ℝ), (0 : ℝ)) = 0 from
      (vlen_eq_zero_iff _).mpr rfl]
    norm_num

/-- Witness for C3 at the spawn state with no keys held and dt = 0. -/
theorem speed_clamp_witness :
    ((Player.init (400, 300)).max_speed = 6 ∧ (0 : ℝ) ≤ 0 ∧
      vlen (Player.init (400, 300)).velocity ≤ 6) ∧
    vlen (((Player.init (400, 300)).handle_input ⟨false, false, false⟩ 0).velocity) ≤ 6 := by
  have hv : vlen (Player.init (400, 300)).velocity ≤ 6 := by
    have : (Player.init (400, 300)).velocity = ((0 : ℝ), (0 : ℝ)) := rfl
    rw [this, (vlen_eq_zero_iff _).mpr rfl]
    norm_num
  exact ⟨⟨rfl, le_refl 0, hv⟩,
    speed_clamp.1 (Player.init (400, 300)) ⟨false, false, false⟩ 0 rfl
      (le_refl 0) hv⟩

/-- Claim C9: `handle_input` is a total function of its arguments; the
speed-clamp rescaling branch is guarded by
`max_speed < |thrust_velocity|`, so with the ship's `max_speed = 6` it runs
only on vectors of magnitude above 6 > 0 — never on a zero-length vector —
and its divisor `|thrust_velocity|` is nonzero there. -/
theorem clamp_no_division_by_zero :
    (∀ (p : Player) (keys : Keys) (dt : ℝ),
      6 < vlen (p.thrust_velocity keys dt) →
        p.thrust_velocity keys dt ≠ ((0 : ℝ), (0 : ℝ)) ∧
        vlen (p.thrust_velocity keys dt) ≠ 0) ∧
    (∀ (p : Player) (keys : Keys) (dt : ℝ), p.max_speed = 6 →
      p.thrust_velocity keys dt = ((0 : ℝ), (0 : ℝ)) →
        ¬ (p.max_speed < vlen (p.thrust_velocity keys dt))) ∧
    (∀ (p : Player) (keys : Keys) (dt : ℝ), keys.up = false →
      (p.handle_input keys dt).velocity = (0.99 : ℝ) • p.velocity) := by
  refine ⟨?_, ?_, ?_⟩
  · intro p keys dt h
    have hne : vlen (p.thrust_velocity keys dt) ≠ 0 := by linarith
    exact ⟨fun hzero => hne ((vlen_eq_zero_iff _).mpr hzero), hne⟩
  · intro p keys dt hmax hzero
    rw [hmax, hzero, (vlen_eq_zero_iff _).mpr rfl]
    norm_num
  · intro p keys dt hup
    unfold Player.handle_input
    simp [hup]

/-- Witness for C9: a ship drifting at speed 7 (thrust attribute 0, so the
thrust-velocity equals the current velocity) exceeds the clamp threshold
and indeed has a nonzero clamp divisor; and the zero-thrust-velocity case
with a standard `max_speed = 6` never triggers the clamp. -/
theorem clamp_no_division_by_zero_witness :
    (6 < vlen ((⟨(0, 0), (7, 0), 0, 0, 0, 6, 250⟩ : Player).thrust_velocity
        ⟨false, false, false⟩ 0)) ∧
    ((⟨(0, 0), (7, 0), 0, 0, 0, 6, 250⟩ : Player).thrust_velocity
        ⟨false, false, false⟩ 0 ≠ ((0 : ℝ), (0 : ℝ)) ∧
      vlen ((⟨(0, 0), (7, 0), 0, 0, 0, 6, 250⟩ : Player).thrust_velocity
        ⟨false, false, false⟩ 0) ≠ 0) := by
  have hval : (⟨(0, 0), (7, 0), 0, 0, 0, 6, 250⟩ : Player).thrust_velocity
      ⟨false, false, false⟩ 0 = ((7 : ℝ), (0 : ℝ)) := by
    unfold Player.thrust_velocity Player.angle_after
    simp only [Bool.false_eq_true, if_false]
    rw [zero_smul, add_zero]
  have hlen : vlen ((⟨(0, 0), (7, 0), 0, 0, 0, 6, 250⟩ : Player).thrust_velocity
      ⟨false, false, false⟩ 0) = 7 := by
    rw [hval]
    unfold vlen
    rw [show ((7 : ℝ), (0 : ℝ)).1 ^ 2 + ((7 : ℝ), (0 : ℝ)).2 ^ 2 = 7 ^ 2 by norm_num,
      Real.sqrt_sq (by norm_num : (0 : ℝ) ≤ 7)]
  have h6 : 6 < vlen ((⟨(0, 0), (7, 0), 0, 0, 0, 6, 250⟩ : Player).thrust_velocity
      ⟨false, false, false⟩ 0) := by rw [hlen]; norm_num
  exact ⟨h6, clamp_no_division_by_zero.1 _ ⟨false, false, false⟩ 0 h6⟩

/-- Every asteroid produced by the spawn loop has size 3 and lies strictly
farther than 200 from the player position, and the loop produces one
asteroid per iteration. -/
lemma spawnLoop_spec (ppos : Vec) (cands : ℕ → List Vec)
    (draws : ℕ → AstRand) (idxs : List ℕ) (asts : List Asteroid)
    (h : spawnLoop ppos cands draws idxs = some asts) :
    asts.length = idxs.length ∧
    ∀ a ∈ asts, a.size = 3 ∧ 200 < dist a.pos ppos := by
  induction idxs generalizing asts with
  | nil =>
    simp only [spawnLoop] at h
    cases h
    simp
  | cons i rest ih =>
    simp only [spawnLoop] at h
    cases hp : pickPos ppos (cands i) with
    | none => rw [hp] at h; cases h
    | some c =>
      rw [hp] at h
      cases hrest : spawnLoop ppos cands draws rest with
      | none => rw [hrest] at h; cases h
      | some l =>
        rw [hrest] at h
        cases h
        have hguard : 200 < dist c ppos := by
          have := List.find?_some hp
          simpa using this
        obtain ⟨hlen, hall⟩ := ih l hrest
        refine ⟨by simp [hlen], ?_⟩
        intro a ha
        rcases List.mem_cons.mp ha with ha | ha
        · subst ha
          exact ⟨rfl, hguard⟩
        · exact hall a ha

/-- Claim C7: whenever `reset_game` returns (at startup and on the restart
transition from GameOver), the fresh session has score exactly 0, the single
recreated ship is centred at (400, 300) with zero velocity, the bullet group
is empty, and there are exactly 5 asteroids, each of size 3 and each lying
strictly farther than 200 from the ship's position. -/
theorem reset_game_spec (cands : ℕ → List Vec) (draws : ℕ → AstRand)
    (pl : Player) (asts : List Asteroid) (bs : List Bullet) (sc : ℕ)
    (h : reset_game cands draws = some (pl, asts, bs, sc)) :
    sc = 0 ∧ pl.pos = (400, 300) ∧ pl.velocity = (0, 0) ∧ bs = [] ∧
    asts.length = 5 ∧ ∀ a ∈ asts, a.size = 3 ∧ 200 < dist a.pos pl.pos := by
  unfold reset_game at h
  rw [Option.map_eq_some'] at h
  obtain ⟨l, hl, heq⟩ := h
  have hpl : pl = Player.init (SCREEN_WIDTH / 2, SCREEN_HEIGHT / 2) :=
    (Prod.mk.injEq _ _ _ _).mp heq |>.1.symm
  have hrest := (Prod.mk.injEq _ _ _ _).mp heq |>.2
  have hasts : asts = l := ((Prod.mk.injEq _ _ _ _).mp hrest).1.symm
  have hbs : bs = [] :=
    (((Prod.mk.injEq _ _ _ _).mp ((Prod.mk.injEq _ _ _ _).mp hrest).2).1).symm
  have hsc : sc = 0 :=
    (((Prod.mk.injEq _ _ _ _).mp ((Prod.mk.injEq _ _ _ _).mp hrest).2).2).symm
  obtain ⟨hlen, hall⟩ := spawnLoop_spec _ cands draws _ l hl
  have hpos : pl.pos = (400, 300) := by
    rw [hpl]
    show ((SCREEN_WIDTH / 2 : ℝ), (SCREEN_HEIGHT / 2 : ℝ)) = (400, 300)
    unfold SCREEN_WIDTH SCREEN_HEIGHT
    norm_num
  have hppos : (Player.init (SCREEN_WIDTH / 2, SCREEN_HEIGHT / 2)).pos =
      (SCREEN_WIDTH / 2, SCREEN_HEIGHT / 2) := rfl
  refine ⟨hsc, hpos, by rw [hpl]; rfl, hbs, by rw [hasts, hlen]; rfl, ?_⟩
  intro a ha
  rw [hasts] at ha
  obtain ⟨hsize, hdist⟩ := hall a ha
  refine ⟨hsize, ?_⟩
  rw [hpl]
  exact hdist

/-- Witness for C7: resetting with the constant candidate stream (0, 0)
(which lies 500 > 200 away from the screen centre) succeeds and yields the
claimed fresh session. -/
theorem reset_game_spec_witness :
    (reset_game (fun _ => [((0 : ℝ), (0 : ℝ))]) (fun _ => ⟨0, 0, 0⟩) =
      some (Player.init (SCREEN_WIDTH / 2, SCREEN_HEIGHT / 2),
        List.replicate 5 (Asteroid.init ((0 : ℝ), (0 : ℝ)) 3 ⟨0, 0, 0⟩),
        ([] : List Bullet), 0)) ∧
    ((0 : ℕ) = 0 ∧
      (Player.init (SCREEN_WIDTH / 2, SCREEN_HEIGHT / 2)).pos = (400, 300) ∧
      (Player.init (SCREEN_WIDTH / 2, SCREEN_HEIGHT / 2)).velocity = (0, 0) ∧
      ([] : List Bullet) = [] ∧
      (List.replicate 5 (Asteroid.init ((0 : ℝ), (0 : ℝ)) 3 ⟨0, 0, 0⟩)).length = 5 ∧
      ∀ a ∈ List.replicate 5 (Asteroid.init ((0 : ℝ), (0 : ℝ)) 3 ⟨0, 0, 0⟩),
        a.size = 3 ∧
        200 < dist a.pos (Player.init (SCREEN_WIDTH / 2, SCREEN_HEIGHT / 2)).pos) := by
  have hdist : (200 : ℝ) < dist ((0 : ℝ), (0 : ℝ)) (SCREEN_WIDTH / 2, SCREEN_HEIGHT / 2) := by
    unfold dist SCREEN_WIDTH SCREEN_HEIGHT
    have harg : (((0 : ℝ), (0 : ℝ)).1 - ((800 : ℝ) / 2, (600 : ℝ) / 2).1) ^ 2 +
        (((0 : ℝ), (0 : ℝ)).2 - ((800 : ℝ) / 2, (600 : ℝ) / 2).2) ^ 2 = 500 ^ 2 := by
      norm_num
    rw [harg, Real.sqrt_sq (by norm_num : (0 : ℝ) ≤ 500)]
    norm_num
  have hpick : pickPos (SCREEN_WIDTH / 2, SCREEN_HEIGHT / 2)
      [((0 : ℝ), (0 : ℝ))] = some ((0 : ℝ), (0 : ℝ)) := by
    unfold pickPos
    rw [List.find?_cons_of_pos _ (by simpa using hdist)]
  have hspawn : spawnLoop ((SCREEN_WIDTH / 2, SCREEN_HEIGHT / 2) : Vec)
      (fun _ => [((0 : ℝ), (0 : ℝ))]) (fun _ => ⟨0, 0, 0⟩) (List.range 5) =
      some (List.replicate 5 (Asteroid.init ((0 : ℝ), (0 : ℝ)) 3 ⟨0, 0, 0⟩)) := by
    have hr : List.range 5 = [0, 1, 2, 3, 4] := by rfl
    rw [hr]
    simp only [spawnLoop, hpick]
    rfl
  have hspawn2 : spawnLoop (Player.init ((SCREEN_WIDTH / 2, SCREEN_HEIGHT / 2) : Vec)).pos
      (fun _ => [((0 : ℝ), (0 : ℝ))]) (fun _ => ⟨0, 0, 0⟩) (List.range 5) =
      some (List.replicate 5 (Asteroid.init ((0 : ℝ), (0 : ℝ)) 3 ⟨0, 0, 0⟩)) := hspawn
  have hmain : reset_game (fun _ => [((0 : ℝ), (0 : ℝ))]) (fun _ => ⟨0, 0, 0⟩) =
      some (Player.init (SCREEN_WIDTH / 2, SCREEN_HEIGHT / 2),
        List.replicate 5 (Asteroid.init ((0 : ℝ), (0 : ℝ)) 3 ⟨0, 0, 0⟩),
        ([] : List Bullet), 0) := by
    simp only [reset_game]
    rw [hspawn2]
    rfl
  exact ⟨hmain, reset_game_spec _ _ _ _ _ _ hmain⟩

/-- The nested collision loop is a single fold over the concatenated hit
lists of the groupcollide dictionary. -/
lemma resolveHits_eq_foldl_allHits (asts : List Asteroid)
    (rand : ℕ → AstRand × AstRand) (score₀ : ℕ) (overlap : ℕ → ℕ → Bool)
    (nb : ℕ) :
    resolveHits asts rand score₀ (groupcollideHits overlap nb asts.length) =
      (allHits overlap nb asts.length).foldl (processHit asts rand)
        ⟨[], [], score₀, 0⟩ := by
  unfold resolveHits allHits
  rw [List.foldl_flatten, List.foldl_map]

/-- The collision loop kills exactly the processed in-range indices. -/
lemma foldl_processHit_killed (asts : List Asteroid)
    (rand : ℕ → AstRand × AstRand) (js : List ℕ) (st : HitState)
    (hjs : ∀ j ∈ js, j < asts.length) :
    (js.foldl (processHit asts rand) st).killed = js.reverse ++ st.killed := by
  induction js generalizing st with
  | nil => simp
  | cons j rest ih =>
    have hj : j < asts.length := hjs j (List.mem_cons_self j rest)
    have hsome : asts[j]? = some (asts[j]) := List.getElem?_eq_getElem hj
    simp only [List.foldl_cons]
    rw [ih _ (fun x hx => hjs x (List.mem_cons_of_mem j hx))]
    simp [processHit, hsome]

/-- The number of fragments added by the collision loop: two per processed
index whose asteroid has size above 1. -/
lemma foldl_processHit_frags (asts : List Asteroid)
    (rand : ℕ → AstRand × AstRand) (js : List ℕ) (st : HitState) :
    (js.foldl (processHit asts rand) st).frags.length =
      st.frags.length +
        (js.map (fun j => if 1 < sizeAt asts j then 2 else 0)).sum := by
  induction js generalizing st with
  | nil => simp
  | cons j rest ih =>
    simp only [List.foldl_cons, List.map_cons, List.sum_cons]
    rw [ih]
    have hstep : (processHit asts rand st j).frags.length =
        st.frags.length + (if 1 < sizeAt asts j then 2 else 0) := by
      unfold processHit sizeAt
      cases h : asts[j]? with
      | none => simp [h]
      | some a =>
        simp only [h, Option.map_some', Option.getD_some]
        rw [List.length_append]
        congr 1
        unfold Asteroid.break_apart
        by_cases hs : a.size ≤ 1
        · have h1 : ¬ 1 < a.size := by omega
          simp [hs, h1]
        · have h1 : 1 < a.size := by omega
          simp [hs, h1]
    rw [hstep]
    ring

/-- Summing a constant over the sublist selected by a predicate. -/
lemma sum_map_ite {α : Type} (l : List α) (p : α → Bool) (c : ℕ) :
    (l.map (fun a => if p a then c else 0)).sum = c * (l.filter p).length := by
  induction l with
  | nil => simp
  | cons a rest ih =>
    by_cases h : p a
    · simp only [List.map_cons, List.sum_cons, if_pos h,
        List.filter_cons_of_pos h, List.length_cons, ih]
      ring
    · simp only [List.map_cons, List.sum_cons, if_neg h,
        List.filter_cons_of_neg h, ih]
      omega

/-- Summing a constant over the elements satisfying a decidable predicate. -/
lemma sum_map_ite_prop {α : Type} (l : List α) (p : α → Prop) [DecidablePred p]
    (c : ℕ) :
    (l.map (fun a => if p a then c else 0)).sum =
      c * (l.filter (fun a => decide (p a))).length := by
  induction l with
  | nil => simp
  | cons a rest ih =>
    by_cases h : p a
    · rw [List.map_cons, List.sum_cons, if_pos h,
        List.filter_cons_of_pos (by simpa using h), List.length_cons, ih]
      ring
    · rw [List.map_cons, List.sum_cons, if_neg h,
        List.filter_cons_of_neg (by simpa using h), ih]
      omega

/-- An index is processed by the collision loop iff it is a live asteroid
index overlapped by some bullet. -/
lemma mem_allHits (overlap : ℕ → ℕ → Bool) (nb na j : ℕ) :
    j ∈ allHits overlap nb na ↔ j < na ∧ ∃ i, i < nb ∧ overlap i j = true := by
  unfold allHits groupcollideHits
  rw [List.map_map]
  simp only [List.mem_flatten, List.mem_map, List.mem_range, Function.comp]
  constructor
  · rintro ⟨l, ⟨i, hi, rfl⟩, hj⟩
    rw [List.mem_filter, List.mem_range] at hj
    exact ⟨hj.1, i, hi, hj.2⟩
  · rintro ⟨hna, i, hi, hov⟩
    exact ⟨(List.range na).filter (fun x => overlap i x), ⟨i, hi, rfl⟩,
      List.mem_filter.mpr ⟨List.mem_range.mpr hna, hov⟩⟩

/-- An in-range asteroid index is processed once per overlapping bullet. -/
lemma count_allHits (overlap : ℕ → ℕ → Bool) (nb na j : ℕ) :
    (allHits overlap nb na).count j =
      if j < na then hitCount overlap nb j else 0 := by
  unfold allHits groupcollideHits hitCount
  rw [List.map_map, List.count_flatten, List.map_map]
  have hterm : ∀ i : ℕ,
      (List.count j ∘ ((fun p => p.2) ∘ fun i =>
        (i, (List.range na).filter (fun x => overlap i x)))) i =
      if overlap i j then (if j < na then 1 else 0) else 0 := by
    intro i
    show ((List.range na).filter (fun x => overlap i x)).count j = _
    by_cases hov : overlap i j = true
    · rw [if_pos hov, List.count_filter hov]
      by_cases hna : j < na
      · rw [if_pos hna,
          List.count_eq_one_of_mem (List.nodup_range na) (List.mem_range.mpr hna)]
      · rw [if_neg hna,
          List.count_eq_zero.mpr (fun hm => hna (List.mem_range.mp hm))]
    · rw [if_neg hov, List.count_eq_zero.mpr]
      intro hm
      exact hov (List.mem_filter.mp hm).2
  rw [List.map_congr_left (fun i _ => hterm i)]
  by_cases hna : j < na
  · simp only [hna, if_true]
    have := sum_map_ite (List.range nb) (fun i => overlap i j) 1
    simpa using this
  · simp [hna]

/-- When every asteroid is overlapped by at most one bullet, no index is
processed twice. -/
lemma allHits_nodup (overlap : ℕ → ℕ → Bool) (nb na : ℕ)
    (h : ∀ j, j < na → hitCount overlap nb j ≤ 1) :
    (allHits overlap nb na).Nodup := by
  rw [List.nodup_iff_count_le_one]
  intro j
  rw [count_allHits]
  by_cases hna : j < na
  · rw [if_pos hna]
    exact h j hna
  · rw [if_neg hna]
    omega

/-- The hit-index list has no duplicates. -/
lemma hitIdxs_nodup (overlap : ℕ → ℕ → Bool) (nb na : ℕ) :
    (hitIdxs overlap nb na).Nodup :=
  (List.nodup_range na).filter _

/-- Membership in the hit-index list. -/
lemma mem_hitIdxs (overlap : ℕ → ℕ → Bool) (nb na j : ℕ) :
    j ∈ hitIdxs overlap nb na ↔ j < na ∧ ∃ i, i < nb ∧ overlap i j = true := by
  unfold hitIdxs
  rw [List.mem_filter, List.mem_range, List.any_eq_true]
  constructor
  · rintro ⟨hna, i, hi, hov⟩
    exact ⟨hna, i, List.mem_range.mp hi, hov⟩
  · rintro ⟨hna, i, hi, hov⟩
    exact ⟨hna, i, List.mem_range.mpr hi, hov⟩

/-- Under the one-bullet-per-asteroid hypothesis the processed indices are a
permutation of the distinct hit indices. -/
lemma allHits_perm_hitIdxs (overlap : ℕ → ℕ → Bool) (nb na : ℕ)
    (h : ∀ j, j < na → hitCount overlap nb j ≤ 1) :
    (allHits overlap nb na).Perm (hitIdxs overlap nb na) :=
  (List.perm_ext_iff_of_nodup (allHits_nodup overlap nb na h)
    (hitIdxs_nodup overlap nb na)).mpr
    (fun j => by rw [mem_allHits, mem_hitIdxs])

/-- The survivor count only depends on which indices were killed. -/
lemma survivors_length (asts : List Asteroid) (killed : List ℕ) :
    (survivors asts killed).length =
      ((List.range asts.length).filter (fun j => decide (j ∉ killed))).length := by
  unfold survivors
  rw [List.length_map, ← List.countP_eq_length_filter,
    ← List.countP_eq_length_filter, ← List.enum_map_fst asts, List.countP_map]
  rfl

/-- Filtering a range by membership in a nodup sublist recovers its length. -/
lemma filter_mem_range_eq_length (na : ℕ) (hit : List ℕ)
    (hsub : ∀ j ∈ hit, j < na) (hnodup : hit.Nodup) :
    ((List.range na).filter (fun j => decide (j ∈ hit))).length = hit.length :=
  List.Perm.length_eq <|
    (List.perm_ext_iff_of_nodup ((List.nodup_range na).filter _) hnodup).mpr
      (fun j => by
        rw [List.mem_filter, List.mem_range]
        simp only [decide_eq_true_eq]
        exact ⟨fun h => h.2, fun h => ⟨hsub j h, h⟩⟩)

/-- A filter and its complement split the length of a list. -/
lemma length_filter_add_length_filter_not {α : Type} (l : List α) (p : α → Bool) :
    (l.filter p).length + (l.filter (fun a => ! p a)).length = l.length := by
  induction l with
  | nil => rfl
  | cons a rest ih =>
    by_cases h : p a
    · rw [List.filter_cons_of_pos h, List.filter_cons_of_neg (by simp [h])]
      simp only [List.length_cons]
      omega
    · rw [List.filter_cons_of_neg h, List.filter_cons_of_pos (by simp [h])]
      simp only [List.length_cons]
      omega

/-- Counting the unkilled indices of a range given a nodup list with the
same membership as the killed list. -/
lemma length_filter_not_mem (na : ℕ) (killed hit : List ℕ)
    (hmem : ∀ j, j < na → ((j ∈ killed) ↔ (j ∈ hit)))
    (hsub : ∀ j ∈ hit, j < na) (hnodup : hit.Nodup) :
    ((List.range na).filter (fun j => decide (j ∉ killed))).length =
      na - hit.length := by
  have hcongr : (List.range na).filter (fun j => decide (j ∉ killed)) =
      (List.range na).filter (fun j => ! decide (j ∈ hit)) := by
    apply List.filter_congr
    intro j hj
    have hiff := hmem j (List.mem_range.mp hj)
    by_cases hk : j ∈ hit
    · simp [hk, hiff.mpr hk]
    · have hnk : j ∉ killed := fun hkk => hk (hiff.mp hkk)
      simp [hk, hnk]
  rw [hcongr]
  have hsplit := length_filter_add_length_filter_not (List.range na)
    (fun j => decide (j ∈ hit))
  rw [List.length_range, filter_mem_range_eq_length na hit hsub hnodup] at hsplit
  omega

/-- Counterexample to claim C1: in a frame where two live bullets overlap
the same single size-2 asteroid, the collision loop of `main` processes
that asteroid once per bullet: it adds 4 fragments and 40 points, not the
2 fragments and `10 * 2 = 20` points a single fragmenting hit would give. -/
theorem multi_bullet_counterexample :
    ((resolveCollisions (fun _ _ => true) (fun _ => (⟨0, 1, 0⟩, ⟨0, 1, 0⟩)) 2
        [⟨(100, 100), (0, 0), 2, 0, 0⟩] 0).2 = 40 ∧
      (resolveCollisions (fun _ _ => true) (fun _ => (⟨0, 1, 0⟩, ⟨0, 1, 0⟩)) 2
        [⟨(100, 100), (0, 0), 2, 0, 0⟩] 0).1.length = 4) ∧
    ¬ ((resolveCollisions (fun _ _ => true) (fun _ => (⟨0, 1, 0⟩, ⟨0, 1, 0⟩)) 2
        [⟨(100, 100), (0, 0), 2, 0, 0⟩] 0).2 = 0 + 10 * 2 ∧
      (resolveCollisions (fun _ _ => true) (fun _ => (⟨0, 1, 0⟩, ⟨0, 1, 0⟩)) 2
        [⟨(100, 100), (0, 0), 2, 0, 0⟩] 0).1.length = 2) := by
  refine ⟨⟨by decide, by decide⟩, ?_⟩
  intro h
  have := h.1
  revert this
  decide

/-- Claim C1 (amended): if in a frame every live asteroid is overlapped by
at most one live projectile, then collision resolution fragments each
overlapped asteroid exactly once (each hit index is processed exactly
once), the asteroid set afterwards consists of the non-overlapped
asteroids plus exactly two fragments per overlapped asteroid of size
above 1, and the score increases by exactly `10 * size` summed once over
the distinct overlapped asteroids. -/
theorem one_hit_per_asteroid (overlap : ℕ → ℕ → Bool)
    (rand : ℕ → AstRand × AstRand) (nb : ℕ) (asts : List Asteroid) (s₀ : ℕ)
    (h : ∀ j, j < asts.length → hitCount overlap nb j ≤ 1) :
    (∀ j ∈ hitIdxs overlap nb asts.length,
      (allHits overlap nb asts.length).count j = 1) ∧
    (resolveCollisions overlap rand nb asts s₀).2 =
      s₀ + 10 * ((hitIdxs overlap nb asts.length).map (sizeAt asts)).sum ∧
    (resolveCollisions overlap rand nb asts s₀).1.length =
      (asts.length - (hitIdxs overlap nb asts.length).length) +
        2 * ((hitIdxs overlap nb asts.length).filter
          (fun j => decide (1 < sizeAt asts j))).length := by
  have hperm := allHits_perm_hitIdxs overlap nb asts.length h
  have hsubAll : ∀ j ∈ allHits overlap nb asts.length, j < asts.length :=
    fun j hj => ((mem_allHits overlap nb asts.length j).mp hj).1
  have hflat := resolveHits_eq_foldl_allHits asts rand s₀ overlap nb
  refine ⟨?_, ?_, ?_⟩
  · intro j hj
    have hna : j < asts.length := ((mem_hitIdxs overlap nb asts.length j).mp hj).1
    rw [count_allHits, if_pos hna]
    have hub := h j hna
    have hmem : j ∈ allHits overlap nb asts.length := hperm.mem_iff.mpr hj
    have hpos : 0 < (allHits overlap nb asts.length).count j :=
      List.count_pos_iff.mpr hmem
    rw [count_allHits, if_pos hna] at hpos
    omega
  · show (resolveHits asts rand s₀
        (groupcollideHits overlap nb asts.length)).score = _
    rw [hflat, foldl_processHit_score]
    have := (hperm.map (sizeAt asts)).sum_eq
    simp only [this]
  · show (survivors asts (resolveHits asts rand s₀
        (groupcollideHits overlap nb asts.length)).killed ++
        (resolveHits asts rand s₀
          (groupcollideHits overlap nb asts.length)).frags).length = _
    rw [List.length_append, hflat]
    have hkilled := foldl_processHit_killed asts rand
      (allHits overlap nb asts.length) ⟨[], [], s₀, 0⟩ hsubAll
    have hfrags := foldl_processHit_frags asts rand
      (allHits overlap nb asts.length) ⟨[], [], s₀, 0⟩
    rw [survivors_length, hkilled]
    have hsurv := length_filter_not_mem asts.length
      ((allHits overlap nb asts.length).reverse ++ [])
      (hitIdxs overlap nb asts.length)
      (fun j _ => by
        rw [List.append_nil, List.mem_reverse]
        exact hperm.mem_iff)
      (fun j hj => ((mem_hitIdxs overlap nb asts.length j).mp hj).1)
      (hitIdxs_nodup overlap nb asts.length)
    rw [hsurv, hfrags]
    have hsum := (hperm.map
      (fun j => if 1 < sizeAt asts j then 2 else 0)).sum_eq
    rw [hsum, sum_map_ite_prop (hitIdxs overlap nb asts.length)
      (fun j => 1 < sizeAt asts j) 2]
    simp

/-- Witness for C1 (amended) in a frame with one bullet overlapping one
size-3 asteroid. -/
theorem one_hit_per_asteroid_witness :
    (∀ j, j < ([⟨(100, 100), (0, 0), 3, 0, 0⟩] : List Asteroid).length →
      hitCount (fun _ _ => true) 1 j ≤ 1) ∧
    ((∀ j ∈ hitIdxs (fun _ _ => true) 1
        ([⟨(100, 100), (0, 0), 3, 0, 0⟩] : List Asteroid).length,
      (allHits (fun _ _ => true) 1
        ([⟨(100, 100), (0, 0), 3, 0, 0⟩] : List Asteroid).length).count j = 1) ∧
    (resolveCollisions (fun _ _ => true) (fun _ => (⟨0, 1, 0⟩, ⟨0, 1, 0⟩)) 1
      [⟨(100, 100), (0, 0), 3, 0, 0⟩] 0).2 =
      0 + 10 * ((hitIdxs (fun _ _ => true) 1
        ([⟨(100, 100), (0, 0), 3, 0, 0⟩] : List Asteroid).length).map
          (sizeAt [⟨(100, 100), (0, 0), 3, 0, 0⟩])).sum ∧
    (resolveCollisions (fun _ _ => true) (fun _ => (⟨0, 1, 0⟩, ⟨0, 1, 0⟩)) 1
      [⟨(100, 100), (0, 0), 3, 0, 0⟩] 0).1.length =
      (([⟨(100, 100), (0, 0), 3, 0, 0⟩] : List Asteroid).length -
        (hitIdxs (fun _ _ => true) 1
          ([⟨(100, 100), (0, 0), 3, 0, 0⟩] : List Asteroid).length).length) +
        2 * ((hitIdxs (fun _ _ => true) 1
          ([⟨(100, 100), (0, 0), 3, 0, 0⟩] : List Asteroid).length).filter
            (fun j => decide (1 < sizeAt [⟨(100, 100), (0, 0), 3, 0, 0⟩] j))).length) := by
  have hcount : ∀ j, j < ([⟨(100, 100), (0, 0), 3, 0, 0⟩] : List Asteroid).length →
      hitCount (fun _ _ => true) 1 j ≤ 1 := by
    intro j _
    show ((List.range 1).filter (fun i => true)).length ≤ 1
    decide
  exact ⟨hcount,
    one_hit_per_asteroid (fun _ _ => true) (fun _ => (⟨0, 1, 0⟩, ⟨0, 1, 0⟩)) 1
      [⟨(100, 100), (0, 0), 3, 0, 0⟩] 0 hcount⟩

end GothSteroids
